import Mathlib

/-!
Verification of the appointment-scheduling dashboard.

The development shallowly embeds the client-side derivation and update code of
the repository (the `EMR_Frontend_Assignment.jsx` component, the API client
`appointmentService.js` and the mock store `appointmentServiceMock.js`):

* Calendar dates are modelled as `(year, month, day)` triples.  The source
  stores them as zero-padded ISO `YYYY-MM-DD` strings and compares them with
  `compareDates`, which parses both strings with `new Date` and subtracts the
  timestamps; for such strings the sign of that difference is exactly the
  lexicographic order on `(year, month, day)`, which is what `compareDates`
  below returns (`-1`, `0`, `1`, the values of the mock's `compareDates`; only
  the sign is ever consumed).  ISO-string equality (`apt.date === today`)
  becomes structural equality of the triples.
* Times stay strings, as in the source; the list sort compares them with
  `localeCompare`, embedded as the lexicographic string order.
* Field names follow the source (`name`, `doctorName`, `status`, ...);
  `status` and `mode` stay plain strings because the code treats them as such.
* The asynchronous status-update handler becomes a pure function of the local
  collection and of the outcomes of its two remote calls (the PUT and the
  failure-path refetch), returning the new collection, the user notification
  raised by `alert`, and how the returned promise settles.
-/

/-- A calendar date `(year, month, day)`, the model of the source's zero-padded
ISO `YYYY-MM-DD` date strings (`month` is 1-based here). -/
structure CalDate where
  year : Nat
  month : Nat
  day : Nat
deriving DecidableEq

/-- Strict calendar order on dates: the sign of the timestamp difference that
the source's `compareDates` computes via `new Date(...).getTime()`. -/
def dateLtP (a b : CalDate) : Prop :=
  a.year < b.year ∨
    (a.year = b.year ∧ (a.month < b.month ∨ (a.month = b.month ∧ a.day < b.day)))

instance : DecidableRel dateLtP := fun a b =>
  inferInstanceAs (Decidable (a.year < b.year ∨
    (a.year = b.year ∧ (a.month < b.month ∨ (a.month = b.month ∧ a.day < b.day)))))

/-- Inclusive calendar order on dates. -/
def dateLeP (a b : CalDate) : Prop := dateLtP a b ∨ a = b

instance : DecidableRel dateLeP := fun a b =>
  inferInstanceAs (Decidable (dateLtP a b ∨ a = b))

/-- `compareDates(date1, date2)` of the service modules: negative when the
first date is earlier, `0` when equal, positive when later (the mock returns
exactly `-1`/`0`/`1`; the API client returns a timestamp difference with the
same sign, and only the sign is consumed by the component). -/
def compareDates (a b : CalDate) : Int :=
  if dateLtP a b then -1 else if dateLtP b a then 1 else 0

theorem dateLtP_asymm {a b : CalDate} (h : dateLtP a b) : ¬ dateLtP b a := by
  unfold dateLtP at *
  omega

theorem dateLtP_irrefl (a : CalDate) : ¬ dateLtP a a := by
  unfold dateLtP
  omega

theorem dateLtP_trans {a b c : CalDate} (h1 : dateLtP a b) (h2 : dateLtP b c) :
    dateLtP a c := by
  unfold dateLtP at *
  omega

theorem dateLtP_trichotomy (a b : CalDate) : dateLtP a b ∨ a = b ∨ dateLtP b a := by
  obtain ⟨y1, m1, d1⟩ := a
  obtain ⟨y2, m2, d2⟩ := b
  simp only [dateLtP, CalDate.mk.injEq]
  omega

theorem compareDates_neg_iff {a b : CalDate} : compareDates a b < 0 ↔ dateLtP a b := by
  unfold compareDates
  rcases dateLtP_trichotomy a b with h | h | h
  · simp [h]
  · subst h
    simp [dateLtP_irrefl a]
  · simp [h, dateLtP_asymm h]

theorem compareDates_nonneg_iff {a b : CalDate} :
    0 ≤ compareDates a b ↔ dateLeP b a := by
  unfold compareDates dateLeP
  rcases dateLtP_trichotomy a b with h | h | h
  · simp only [if_pos h]
    constructor
    · intro hc
      exact absurd hc (by norm_num)
    · intro hc
      rcases hc with hc | hc
      · exact absurd h (dateLtP_asymm hc)
      · exact absurd h (hc ▸ dateLtP_irrefl b)
  · subst h
    simp [dateLtP_irrefl a]
  · simp only [if_neg (dateLtP_asymm h), if_pos h]
    constructor
    · intro _
      exact Or.inl h
    · intro _
      norm_num

theorem compareDates_pos_iff {a b : CalDate} :
    0 < compareDates a b ↔ dateLtP b a := by
  unfold compareDates
  rcases dateLtP_trichotomy a b with h | h | h
  · simp [h, dateLtP_asymm h]
  · subst h
    simp [dateLtP_irrefl a]
  · simp [h, dateLtP_asymm h]

/-- An appointment record in the shape the React component holds in its
`appointments` state (the transformed backend rows). -/
structure Apt where
  id : String
  name : String
  initials : String
  date : CalDate
  time : String
  duration : Nat
  doctorName : String
  status : String
  mode : String
  reason : String
  note : String
  phone : String
  email : String
deriving DecidableEq

/-- The component's filter state: `activeTab`, `selectedDate`, `searchQuery`,
`statusFilter`, `doctorFilter` (the `useState` hooks of the component). -/
structure FilterState where
  activeTab : String
  selectedDate : Option CalDate
  searchQuery : String
  statusFilter : String
  doctorFilter : String
deriving DecidableEq

/-- JavaScript `String.prototype.trim`: strips whitespace from both ends. -/
def jsTrim (s : String) : String :=
  ⟨((s.data.dropWhile Char.isWhitespace).reverse.dropWhile Char.isWhitespace).reverse⟩

/-- JavaScript `String.prototype.toLowerCase` (ASCII case mapping, which is
all the data at hand uses). -/
def jsToLower (s : String) : String := ⟨s.data.map Char.toLower⟩

/-- `s.includes(sub)` of JavaScript: `sub` occurs contiguously in `s`. -/
def includesB (s sub : String) : Bool := decide (sub.data <:+: s.data)

/-- Strict lexicographic order on character sequences: the order of
JavaScript's `localeCompare` on the code-unit strings at hand. -/
def strLtB : List Char → List Char → Bool
  | [], [] => false
  | [], _ :: _ => true
  | _ :: _, [] => false
  | a :: as, b :: bs => if a < b then true else if b < a then false else strLtB as bs

theorem strLtB_irrefl : ∀ as, strLtB as as = false
  | [] => rfl
  | a :: as => by
    simp only [strLtB, lt_irrefl a, if_false]
    exact strLtB_irrefl as

theorem strLtB_trichotomy : ∀ as bs, strLtB as bs = true ∨ as = bs ∨ strLtB bs as = true
  | [], [] => Or.inr (Or.inl rfl)
  | [], _ :: _ => Or.inl rfl
  | _ :: _, [] => Or.inr (Or.inr rfl)
  | a :: as, b :: bs => by
    rcases lt_trichotomy a b with hab | hab | hab
    · exact Or.inl (by simp [strLtB, hab])
    · subst hab
      rcases strLtB_trichotomy as bs with h | h | h
      · exact Or.inl (by simp [strLtB, lt_irrefl a, h])
      · exact Or.inr (Or.inl (by rw [h]))
      · exact Or.inr (Or.inr (by simp [strLtB, lt_irrefl a, h]))
    · exact Or.inr (Or.inr (by simp [strLtB, hab]))

theorem strLtB_trans : ∀ as bs cs, strLtB as bs = true → strLtB bs cs = true →
    strLtB as cs = true
  | [], bs, [], _, h2 => by cases bs <;> simp [strLtB] at h2
  | [], _, _ :: _, _, _ => rfl
  | _ :: _, [], _, h1, _ => by simp [strLtB] at h1
  | _ :: _, _ :: _, [], _, h2 => by simp [strLtB] at h2
  | a :: as, b :: bs, c :: cs, h1, h2 => by
    simp only [strLtB] at h1 h2 ⊢
    rcases lt_trichotomy a b with hab | hab | hab
    · rcases lt_trichotomy b c with hbc | hbc | hbc
      · simp [lt_trans hab hbc]
      · subst hbc
        simp [hab]
      · rw [if_neg (asymm hbc), if_pos hbc] at h2
        cases h2
    · subst hab
      rcases lt_trichotomy a c with hac | hac | hac
      · simp [hac]
      · subst hac
        rw [if_neg (lt_irrefl a), if_neg (lt_irrefl a)] at h1 h2 ⊢
        exact strLtB_trans as bs cs h1 h2
      · rw [if_neg (asymm hac), if_pos hac] at h2
        cases h2
    · rw [if_neg (asymm hab), if_pos hab] at h1
      cases h1

theorem strLtB_asymm {as bs : List Char} (h : strLtB as bs = true) :
    strLtB bs as = false := by
  by_contra hc
  rw [Bool.not_eq_false] at hc
  have := strLtB_trans as bs as h hc
  rw [strLtB_irrefl as] at this
  cases this

/-- `time1.localeCompare(time2) <= 0`: the tie-breaking comparison of the
final `.sort` of `filteredAppointments`. -/
def timeLeB (a b : String) : Bool := ! strLtB b.data a.data

/-- The comparator of `filteredAppointments`' final `.sort`: earlier date
first, ties broken by `time.localeCompare` (lexicographic string order). -/
def aptLE (a b : Apt) : Prop :=
  dateLtP a.date b.date ∨ (a.date = b.date ∧ timeLeB a.time b.time = true)

instance : DecidableRel aptLE := fun a b =>
  inferInstanceAs (Decidable (dateLtP a.date b.date ∨
    (a.date = b.date ∧ timeLeB a.time b.time = true)))

theorem timeLeB_trans {a b c : String} (h1 : timeLeB a b = true) (h2 : timeLeB b c = true) :
    timeLeB a c = true := by
  simp only [timeLeB, Bool.not_eq_true', Bool.not_eq_true] at *
  by_contra hc
  rw [Bool.not_eq_false] at hc
  rcases strLtB_trichotomy b.data a.data with h | h | h
  · rw [h] at h1
    cases h1
  · rw [← h, h2] at hc
    cases hc
  · have := strLtB_trans c.data a.data b.data hc h
    rw [h2] at this
    cases this

theorem timeLeB_total (a b : String) : timeLeB a b = true ∨ timeLeB b a = true := by
  simp only [timeLeB, Bool.not_eq_true']
  by_cases h : strLtB b.data a.data = true
  · exact Or.inr (strLtB_asymm h)
  · exact Or.inl (Bool.not_eq_true _ ▸ Bool.eq_false_iff.mpr (fun hx => h hx))

instance : IsTrans Apt aptLE where
  trans := by
    intro a b c hab hbc
    rcases hab with h1 | ⟨e1, t1⟩ <;> rcases hbc with h2 | ⟨e2, t2⟩
    · exact Or.inl (dateLtP_trans h1 h2)
    · exact Or.inl (e2 ▸ h1)
    · exact Or.inl (e1 ▸ h2)
    · exact Or.inr ⟨e1.trans e2, timeLeB_trans t1 t2⟩

instance : IsTotal Apt aptLE where
  total := by
    intro a b
    rcases dateLtP_trichotomy a.date b.date with h | h | h
    · exact Or.inl (Or.inl h)
    · rcases timeLeB_total a.time b.time with ht | ht
      · exact Or.inl (Or.inr ⟨h, ht⟩)
      · exact Or.inr (Or.inr ⟨h.symm, ht⟩)
    · exact Or.inr (Or.inl h)

/-- Tab-based date filtering of `filteredAppointments`: the `if`-chain over
`activeTab` (`'Today'`, `'Upcoming'`, `'Past'`; any other value, in particular
`'All'`, leaves the list unfiltered). -/
def tabFiltered (apts : List Apt) (tab : String) (today : CalDate) : List Apt :=
  if tab = "Today" then apts.filter (fun apt => apt.date == today)
  else if tab = "Upcoming" then
    apts.filter (fun apt => decide (0 ≤ compareDates apt.date today))
  else if tab = "Past" then
    apts.filter (fun apt => decide (compareDates apt.date today < 0))
  else apts

/-- Exact-date filtering of `filteredAppointments`: applied only when a
calendar date is selected. -/
def dateFiltered (l : List Apt) (sel : Option CalDate) : List Apt :=
  match sel with
  | some d => l.filter (fun apt => apt.date == d)
  | none => l

/-- Search filtering of `filteredAppointments`: active when the query is
non-empty after trimming; matches the lowercased query as a substring of the
lowercased `name`, `doctorName` or `reason`. -/
def searchFiltered (l : List Apt) (searchQuery : String) : List Apt :=
  if jsTrim searchQuery = "" then l
  else
    let query := jsToLower searchQuery
    l.filter (fun apt =>
      includesB (jsToLower apt.name) query ||
      includesB (jsToLower apt.doctorName) query ||
      includesB (jsToLower apt.reason) query)

/-- Status filtering of `filteredAppointments`: exact match unless the filter
is the `'All Status'` sentinel. -/
def statusFiltered (l : List Apt) (statusFilter : String) : List Apt :=
  if statusFilter = "All Status" then l
  else l.filter (fun apt => apt.status == statusFilter)

/-- Doctor filtering of `filteredAppointments`: exact match unless the filter
is the `'All Doctors'` sentinel. -/
def doctorFiltered (l : List Apt) (doctorFilter : String) : List Apt :=
  if doctorFilter = "All Doctors" then l
  else l.filter (fun apt => apt.doctorName == doctorFilter)

/-- The five filter stages of `filteredAppointments`, in source order. -/
def filterPipeline (apts : List Apt) (fs : FilterState) (today : CalDate) : List Apt :=
  doctorFiltered
    (statusFiltered
      (searchFiltered
        (dateFiltered (tabFiltered apts fs.activeTab today) fs.selectedDate)
        fs.searchQuery)
      fs.statusFilter)
    fs.doctorFilter

/-- `filteredAppointments` of the component: the filter pipeline followed by
the sort by date then lexical time. -/
def filteredAppointments (apts : List Apt) (fs : FilterState) (today : CalDate) : List Apt :=
  (filterPipeline apts fs today).insertionSort aptLE

/-- The four dashboard statistics of the component's `stats` memo. -/
structure Stats where
  today : Nat
  confirmed : Nat
  upcoming : Nat
  virtual : Nat
deriving DecidableEq

/-- `stats` of the component: four filter passes over the collection. -/
def stats (apts : List Apt) (today : CalDate) : Stats :=
  { today := (apts.filter (fun apt => apt.date == today)).length
    confirmed := (apts.filter (fun apt => apt.status == "Confirmed")).length
    upcoming := (apts.filter (fun apt => decide (0 < compareDates apt.date today))).length
    virtual := (apts.filter (fun apt => apt.mode == "Video Call")).length }

/-- Gregorian leap-year rule, the rule `new Date(year, month + 1, 0).getDate()`
follows for February. -/
def isLeap (y : Nat) : Bool := y % 4 == 0 && (y % 100 != 0 || y % 400 == 0)

/-- Days in month `m` (0-based, 0 = January) of year `y`: the value of
`new Date(year, month + 1, 0).getDate()` in the source. -/
def daysInMonth0 (y m : Nat) : Nat :=
  if m = 1 then (if isLeap y then 29 else 28)
  else if m = 3 ∨ m = 5 ∨ m = 8 ∨ m = 10 then 30
  else 31

/-- Weekday (0 = Sunday) of day `q` of month `m` (1-based) of year `y`:
the value of `new Date(year, month, q).getDay()`, computed by Zeller's
congruence for the Gregorian calendar. -/
def dayOfWeek (y m q : Nat) : Nat :=
  let yz := if m ≤ 2 then y - 1 else y
  let mz := if m ≤ 2 then m + 12 else m
  let k := yz % 100
  let j := yz / 100
  (q + (13 * (mz + 1)) / 5 + k + k / 4 + j / 4 + 5 * j + 6) % 7

/-- The year/month/day components of a JavaScript `Date` (month 0-based, as
returned by `getMonth()`), the model of the component's `currentMonth`. -/
structure JsDate where
  year : Nat
  month : Nat
  day : Nat
deriving DecidableEq

/-- One non-blank cell of the component's `calendarDays` memo. -/
structure CalendarEntry where
  day : Nat
  dateStr : CalDate
  hasAppointments : Bool
  appointments : List Apt
deriving DecidableEq

/-- `calendarDays` of the component: a first loop pushes one `null` per
weekday slot before the 1st of the month, a second pushes one entry per day
`1..daysInMonth` carrying the day number, its date, whether any appointment
falls on it, and the appointments of that day. -/
def calendarDays (apts : List Apt) (cm : JsDate) : List (Option CalendarEntry) :=
  (List.range (daysInMonth0 cm.year cm.month)).foldl (fun days k =>
    days ++ [some
      { day := k + 1
        dateStr := ⟨cm.year, cm.month + 1, k + 1⟩
        hasAppointments :=
          apts.any (fun apt => apt.date == (⟨cm.year, cm.month + 1, k + 1⟩ : CalDate))
        appointments :=
          apts.filter (fun apt => apt.date == (⟨cm.year, cm.month + 1, k + 1⟩ : CalDate)) }])
    ((List.range (dayOfWeek cm.year (cm.month + 1) 1)).foldl (fun days _ => days ++ [none]) [])

/-- The months-since-year-zero count `year * 12 + month`, clipped at zero
(never reached for the calendar years in play). -/
def jsYM (yr : Nat) (m : Int) : Nat := ((yr : Int) * 12 + m).toNat

/-- JavaScript `Date.prototype.setMonth`: the month index is folded into the
year (rolling over past December/January), and a day-of-month larger than the
target month's length spills into the following month.  Exact for the dates
the UI produces (`day ≤ 31`, so at most one spill-over). -/
def jsSetMonth (dt : JsDate) (m : Int) : JsDate :=
  if dt.day ≤ daysInMonth0 (jsYM dt.year m / 12) (jsYM dt.year m % 12) then
    ⟨jsYM dt.year m / 12, jsYM dt.year m % 12, dt.day⟩
  else if jsYM dt.year m % 12 = 11 then
    ⟨jsYM dt.year m / 12 + 1, 0,
      dt.day - daysInMonth0 (jsYM dt.year m / 12) (jsYM dt.year m % 12)⟩
  else
    ⟨jsYM dt.year m / 12, jsYM dt.year m % 12 + 1,
      dt.day - daysInMonth0 (jsYM dt.year m / 12) (jsYM dt.year m % 12)⟩

/-- `changeMonth(offset)` of the component:
`newDate.setMonth(prev.getMonth() + offset)`. -/
def changeMonth (cm : JsDate) (offset : Int) : JsDate :=
  jsSetMonth cm ((cm.month : Int) + offset)

/-- `handleTabChange(tab)`: activates the tab and clears the selected date. -/
def handleTabChange (s : FilterState) (tab : String) : FilterState :=
  { s with activeTab := tab, selectedDate := none }

/-- `handleDateSelect(dateStr)`: toggles the exact-date filter. -/
def handleDateSelect (s : FilterState) (dateStr : CalDate) : FilterState :=
  { s with selectedDate := if s.selectedDate = some dateStr then none else some dateStr }

/-- The filter-state mutation events the component's handlers and controlled
inputs can raise. -/
inductive UIEvent where
  | tabChange (tab : String)
  | dateSelect (dateStr : CalDate)
  | setSearch (q : String)
  | setStatusFilter (v : String)
  | setDoctorFilter (v : String)

/-- One filter-state transition of the component. -/
def stepFilter (s : FilterState) : UIEvent → FilterState
  | .tabChange t => handleTabChange s t
  | .dateSelect d => handleDateSelect s d
  | .setSearch q => { s with searchQuery := q }
  | .setStatusFilter v => { s with statusFilter := v }
  | .setDoctorFilter v => { s with doctorFilter := v }

/-- Folding a sequence of UI events over the filter state. -/
def applyEvents (s : FilterState) (evs : List UIEvent) : FilterState :=
  evs.foldl stepFilter s

/-- A row of the mock store (`appointmentServiceMock.js`), the shape of the
`APPOINTMENTS` array there. -/
structure StoreApt where
  id : String
  name : String
  date : CalDate
  time : String
  duration : Nat
  doctorName : String
  status : String
  mode : String
deriving DecidableEq

/-- The seed `APPOINTMENTS` array of `appointmentServiceMock.js`. -/
def APPOINTMENTS : List StoreApt :=
  [ ⟨"apt001", "John Smith", ⟨2025, 12, 10⟩, "09:00", 30, "Dr. Sarah Johnson", "Confirmed", "In-Person"⟩,
    ⟨"apt002", "Emma Wilson", ⟨2025, 12, 15⟩, "10:30", 45, "Dr. Michael Chen", "Scheduled", "Video"⟩,
    ⟨"apt003", "Robert Brown", ⟨2025, 12, 15⟩, "14:00", 30, "Dr. Sarah Johnson", "Confirmed", "In-Person"⟩,
    ⟨"apt004", "Lisa Anderson", ⟨2025, 12, 20⟩, "11:00", 60, "Dr. Emily White", "Upcoming", "Video"⟩,
    ⟨"apt005", "James Taylor", ⟨2025, 12, 8⟩, "15:30", 30, "Dr. Michael Chen", "Confirmed", "In-Person"⟩,
    ⟨"apt006", "Maria Garcia", ⟨2025, 12, 18⟩, "09:30", 45, "Dr. Sarah Johnson", "Upcoming", "Video"⟩,
    ⟨"apt007", "David Martinez", ⟨2025, 12, 5⟩, "13:00", 30, "Dr. Emily White", "Cancelled", "In-Person"⟩,
    ⟨"apt008", "Jennifer Lee", ⟨2025, 12, 22⟩, "16:00", 30, "Dr. Michael Chen", "Scheduled", "In-Person"⟩,
    ⟨"apt009", "Christopher Davis", ⟨2025, 12, 15⟩, "11:30", 45, "Dr. Emily White", "Confirmed", "Video"⟩,
    ⟨"apt010", "Patricia Moore", ⟨2025, 12, 3⟩, "10:00", 60, "Dr. Sarah Johnson", "Confirmed", "In-Person"⟩,
    ⟨"apt011", "Michael Johnson", ⟨2025, 12, 25⟩, "14:30", 30, "Dr. Michael Chen", "Upcoming", "Video"⟩,
    ⟨"apt012", "Sarah Thompson", ⟨2025, 12, 12⟩, "08:30", 45, "Dr. Emily White", "Cancelled", "In-Person"⟩ ]

/-- The failure the mock mutation throws when the id is unknown. -/
inductive ServiceError where
  | notFound (id : String)
deriving DecidableEq

/-- In-place mutation of the object returned by `Array.prototype.find`: the
first record with the given id gets the new status, later ones are untouched. -/
def setStatusFirst : List StoreApt → String → String → List StoreApt
  | [], _, _ => []
  | apt :: rest, i, st =>
    if apt.id = i then { apt with status := st } :: rest
    else apt :: setStatusFirst rest i st

/-- `updateAppointmentStatus` of `appointmentServiceMock.js`: finds the record
by id (throwing when absent), mutates its status in the store, and returns a
copy of the updated record.  The returned pair is (updated record, store after
the mutation). -/
def updateAppointmentStatus (store : List StoreApt) (appointmentId newStatus : String) :
    Except ServiceError (StoreApt × List StoreApt) :=
  match store.find? (fun apt => apt.id == appointmentId) with
  | none => .error (.notFound appointmentId)
  | some apt => .ok ({ apt with status := newStatus }, setStatusFirst store appointmentId newStatus)

/-- The store after a sequence of `updateAppointmentStatus` calls (a throwing
call leaves the store unchanged). -/
def applyUpdates (store : List StoreApt) : List (String × String) → List StoreApt
  | [] => store
  | (i, st) :: rest =>
    applyUpdates
      (match updateAppointmentStatus store i st with
       | .ok (_, s) => s
       | .error _ => store) rest

/-- A row in the wire shape the FastAPI backend returns (snake-cased fields,
optional columns nullable), as consumed by the component's transform. -/
structure RawApt where
  id : String
  patient_name : String
  patient_initials : Option String
  appointment_date : CalDate
  appointment_time : String
  duration : Nat
  doctor_name : String
  status : String
  mode : String
  reason : Option String
  notes : Option String
  phone : Option String
  email : Option String
deriving DecidableEq

/-- JavaScript `a || b` on an optional string: the fallback fires on `null`
and on the empty string (both falsy). -/
def jsOrString (a : Option String) (b : String) : String :=
  match a with
  | some s => if s = "" then b else s
  | none => b

/-- `patient_name.split(' ').map(n => n[0]).join('')` of the transform. -/
def computeInitials (n : String) : String :=
  String.join ((n.splitOn " ").map (fun w => w.take 1))

/-- The snake-case-to-camel-case transform the component applies to every
fetched row (both on mount and on the failure-path refetch). -/
def transformAppointment (apt : RawApt) : Apt :=
  { id := apt.id
    name := apt.patient_name
    initials := jsOrString apt.patient_initials (computeInitials apt.patient_name)
    date := apt.appointment_date
    time := apt.appointment_time
    duration := apt.duration
    doctorName := apt.doctor_name
    status := apt.status
    mode := apt.mode
    reason := jsOrString apt.reason ""
    note := jsOrString apt.notes ""
    phone := jsOrString apt.phone ""
    email := jsOrString apt.email "" }

/-- The observable outcome of one `handleStatusUpdate` call: the collection
the component holds afterwards, the `alert` notification (if any), and how the
returned promise settles. -/
structure UpdateOutcome where
  appointments : List Apt
  notification : Option String
  result : Except String Unit

/-- `handleStatusUpdate(appointmentId, newStatus)` of the component, as a pure
function of the outcomes of its two remote calls: the optimistic map is
applied first; on remote success nothing else happens; on remote failure the
collection is refetched, transformed and installed wholesale and an alert is
raised; if that refetch itself throws, the rejection escapes the handler, the
optimistic collection stays in place and no alert is shown. -/
def handleStatusUpdate (apts : List Apt) (appointmentId newStatus : String)
    (remote : Except String Unit) (refetch : Except String (List RawApt)) : UpdateOutcome :=
  let optimistic := apts.map (fun apt =>
    if apt.id = appointmentId then { apt with status := newStatus } else apt)
  match remote with
  | .ok _ => { appointments := optimistic, notification := none, result := .ok () }
  | .error _ =>
    match refetch with
    | .ok data =>
      { appointments := data.map transformAppointment
        notification := some "Failed to update appointment status"
        result := .ok () }
    | .error e => { appointments := optimistic, notification := none, result := .error e }

/-- Splitting a character sequence at a separator character. -/
def splitCh (sep : Char) : List Char → List Char → List (List Char)
  | [], acc => [acc.reverse]
  | c :: rest, acc =>
    if c = sep then acc.reverse :: splitCh sep rest []
    else splitCh sep rest (c :: acc)

/-- The numeric value of a digit sequence. -/
def digitsToNat (l : List Char) : Nat :=
  l.foldl (fun n c => n * 10 + (c.toNat - 48)) 0

/-- Minutes since midnight denoted by an `H:MM` or `HH:MM` time string, the
normalization the specification demands of a correct time comparison. -/
def minutesOfTime (s : String) : Nat :=
  match splitCh ':' s.data [] with
  | [h, m] => digitsToNat h * 60 + digitsToNat m
  | _ => 0

/-- The specification's sort key: earlier date first, ties by
minutes-since-midnight of the time. -/
def specKeyLE (a b : Apt) : Prop :=
  dateLtP a.date b.date ∨ (a.date = b.date ∧ minutesOfTime a.time ≤ minutesOfTime b.time)

instance : DecidableRel specKeyLE := fun a b =>
  inferInstanceAs (Decidable (dateLtP a.date b.date ∨
    (a.date = b.date ∧ minutesOfTime a.time ≤ minutesOfTime b.time)))

/-- The specification's sortedness claim: every adjacent pair of the list is
non-decreasing in the (date, minutes-since-midnight) key. -/
def sortedByDateAndMinutes (l : List Apt) : Prop := l.Chain' specKeyLE

theorem mem_tabFiltered {apts : List Apt} {tab : String} {today : CalDate} {a : Apt}
    (h : a ∈ tabFiltered apts tab today) :
    a ∈ apts ∧ (tab = "Today" → a.date = today) ∧
      (tab = "Upcoming" → dateLeP today a.date) ∧ (tab = "Past" → dateLtP a.date today) := by
  unfold tabFiltered at h
  by_cases h1 : tab = "Today"
  · rw [if_pos h1, List.mem_filter] at h
    exact ⟨h.1, fun _ => eq_of_beq h.2,
      fun hu => absurd (h1.symm.trans hu) (by decide),
      fun hp => absurd (h1.symm.trans hp) (by decide)⟩
  · rw [if_neg h1] at h
    by_cases h2 : tab = "Upcoming"
    · rw [if_pos h2, List.mem_filter] at h
      exact ⟨h.1, fun ht => absurd (h2.symm.trans ht) (by decide),
        fun _ => compareDates_nonneg_iff.mp (of_decide_eq_true h.2),
        fun hp => absurd (h2.symm.trans hp) (by decide)⟩
    · rw [if_neg h2] at h
      by_cases h3 : tab = "Past"
      · rw [if_pos h3, List.mem_filter] at h
        exact ⟨h.1, fun ht => absurd (h3.symm.trans ht) (by decide),
          fun hu => absurd (h3.symm.trans hu) (by decide),
          fun _ => compareDates_neg_iff.mp (of_decide_eq_true h.2)⟩
      · rw [if_neg h3] at h
        exact ⟨h, fun ht => absurd ht h1, fun hu => absurd hu h2, fun hp => absurd hp h3⟩

theorem mem_dateFiltered {l : List Apt} {sel : Option CalDate} {a : Apt}
    (h : a ∈ dateFiltered l sel) :
    a ∈ l ∧ ∀ d, sel = some d → a.date = d := by
  unfold dateFiltered at h
  cases sel with
  | none => exact ⟨h, fun d hd => by simp at hd⟩
  | some d0 =>
    rw [List.mem_filter] at h
    refine ⟨h.1, fun d hd => ?_⟩
    injection hd with hd
    exact (eq_of_beq h.2).trans hd

theorem mem_searchFiltered {l : List Apt} {q : String} {a : Apt}
    (h : a ∈ searchFiltered l q) :
    a ∈ l ∧ (jsTrim q ≠ "" →
      ((jsToLower q).data <:+: (jsToLower a.name).data
       ∨ (jsToLower q).data <:+: (jsToLower a.doctorName).data
       ∨ (jsToLower q).data <:+: (jsToLower a.reason).data)) := by
  unfold searchFiltered at h
  by_cases h1 : jsTrim q = ""
  · rw [if_pos h1] at h
    exact ⟨h, fun hne => absurd h1 hne⟩
  · rw [if_neg h1] at h
    rw [List.mem_filter] at h
    refine ⟨h.1, fun _ => ?_⟩
    have h2 := h.2
    simp only [includesB, Bool.or_eq_true, decide_eq_true_eq] at h2
    exact or_assoc.mp h2

theorem mem_statusFiltered {l : List Apt} {sf : String} {a : Apt}
    (h : a ∈ statusFiltered l sf) :
    a ∈ l ∧ (sf ≠ "All Status" → a.status = sf) := by
  unfold statusFiltered at h
  by_cases h1 : sf = "All Status"
  · rw [if_pos h1] at h
    exact ⟨h, fun hne => absurd h1 hne⟩
  · rw [if_neg h1, List.mem_filter] at h
    exact ⟨h.1, fun _ => eq_of_beq h.2⟩

theorem mem_doctorFiltered {l : List Apt} {df : String} {a : Apt}
    (h : a ∈ doctorFiltered l df) :
    a ∈ l ∧ (df ≠ "All Doctors" → a.doctorName = df) := by
  unfold doctorFiltered at h
  by_cases h1 : df = "All Doctors"
  · rw [if_pos h1] at h
    exact ⟨h, fun hne => absurd h1 hne⟩
  · rw [if_neg h1, List.mem_filter] at h
    exact ⟨h.1, fun _ => eq_of_beq h.2⟩

/-- C1: every record of the derived visible list comes from the input
collection, and satisfies every active predicate simultaneously: the tab
predicate (`Today`: date equal to today; `Upcoming`: date on or after today;
`Past`: date before today; any other tab, in particular `All`, unconstrained),
the exact selected-date equality when a date is selected, the case-insensitive
substring search over patient name, doctor name or reason when the query is
non-empty after trimming, the exact status match when the status filter is not
the `All Status` value, and the exact doctor match when the doctor filter is
not the `All Doctors` value. -/
theorem filteredAppointments_sound (apts : List Apt) (fs : FilterState) (today : CalDate)
    (a : Apt) (h : a ∈ filteredAppointments apts fs today) :
    a ∈ apts
    ∧ (fs.activeTab = "Today" → a.date = today)
    ∧ (fs.activeTab = "Upcoming" → dateLeP today a.date)
    ∧ (fs.activeTab = "Past" → dateLtP a.date today)
    ∧ (∀ d, fs.selectedDate = some d → a.date = d)
    ∧ (jsTrim fs.searchQuery ≠ "" →
        ((jsToLower fs.searchQuery).data <:+: (jsToLower a.name).data
         ∨ (jsToLower fs.searchQuery).data <:+: (jsToLower a.doctorName).data
         ∨ (jsToLower fs.searchQuery).data <:+: (jsToLower a.reason).data))
    ∧ (fs.statusFilter ≠ "All Status" → a.status = fs.statusFilter)
    ∧ (fs.doctorFilter ≠ "All Doctors" → a.doctorName = fs.doctorFilter) := by
  unfold filteredAppointments at h
  rw [List.mem_insertionSort] at h
  unfold filterPipeline at h
  obtain ⟨h, hdoc⟩ := mem_doctorFiltered h
  obtain ⟨h, hst⟩ := mem_statusFiltered h
  obtain ⟨h, hq⟩ := mem_searchFiltered h
  obtain ⟨h, hsel⟩ := mem_dateFiltered h
  obtain ⟨h, ht, hu, hp⟩ := mem_tabFiltered h
  exact ⟨h, ht, hu, hp, hsel, hq, hst, hdoc⟩

/-- The "today" used by the concrete instances below. -/
def exToday : CalDate := ⟨2025, 12, 15⟩

/-- A concrete appointment dated `exToday`. -/
def exApt : Apt :=
  ⟨"apt1", "Sarah Johnson", "SJ", ⟨2025, 12, 15⟩, "09:00", 30, "Dr. Michael Chen",
    "Confirmed", "In-Person", "Diabetes Management Review", "", "", ""⟩

/-- The component's initial filter state with the `All` tab active. -/
def exFilterAll : FilterState := ⟨"All", none, "", "All Status", "All Doctors"⟩

/-- A filter state with the `Today` tab active and no other filter. -/
def exFilterToday : FilterState := ⟨"Today", none, "", "All Status", "All Doctors"⟩

/-- Witness for C1: a concrete appointment survives the `Today` pipeline, is
drawn from the input, and indeed falls on today's date. -/
theorem filteredAppointments_sound_app : exApt ∈ [exApt] ∧ exApt.date = exToday := by
  have h := filteredAppointments_sound [exApt] exFilterToday exToday exApt (by decide)
  exact ⟨h.1, h.2.1 rfl⟩

/-- C2 (amended): the visible list is non-decreasing in the pair (calendar
date, lexicographic time string) at every adjacent position — the order the
source's `compareDates`-then-`localeCompare` comparator actually implements.
For zero-padded `HH:MM` times this coincides with minutes-since-midnight
order, but not in general (see the counterexample). -/
theorem filteredAppointments_sorted_lex (apts : List Apt) (fs : FilterState)
    (today : CalDate) : (filteredAppointments apts fs today).Chain' aptLE := by
  unfold filteredAppointments
  exact (List.sorted_insertionSort aptLE (filterPipeline apts fs today)).chain'

/-- An appointment whose time string `9:00` is not zero-padded. -/
def cexApt9 : Apt :=
  ⟨"a1", "P1", "P", ⟨2025, 12, 15⟩, "9:00", 30, "Dr. X", "Confirmed", "In-Person", "", "", "", ""⟩

/-- An appointment at `10:00` on the same date as `cexApt9`. -/
def cexApt10 : Apt :=
  ⟨"a2", "P2", "P", ⟨2025, 12, 15⟩, "10:00", 30, "Dr. X", "Confirmed", "In-Person", "", "", "", ""⟩

/-- C2 counterexample: with the unfiltered `All` tab, the visible list built
from the collection `[9:00, 10:00]` (same date) is NOT sorted by
minutes-since-midnight: the lexical comparison the source uses puts `10:00`
before `9:00` (600 minutes before 540). -/
theorem filteredAppointments_minutes_cex :
    ¬ sortedByDateAndMinutes (filteredAppointments [cexApt9, cexApt10] exFilterAll exToday) := by
  intro hsorted
  unfold sortedByDateAndMinutes at hsorted
  rw [show filteredAppointments [cexApt9, cexApt10] exFilterAll exToday
      = [cexApt10, cexApt9] from by decide] at hsorted
  rw [List.chain'_cons] at hsorted
  exact absurd hsorted.1 (by decide)

/-- C3 counterexample: for a collection holding one appointment dated today,
the `upcoming` statistic is `0`, not the inclusive `date >= today` count `1`:
the source counts with `compareDates(apt.date, today) > 0`, which excludes
appointments dated today. -/
theorem stats_upcoming_inclusive_cex :
    (stats [exApt] exToday).upcoming
      ≠ List.countP (fun apt => decide (dateLeP exToday apt.date)) [exApt] := by
  decide

/-- C3 (amended): the statistics are exactly the count of appointments dated
today, the count with status `Confirmed`, the count dated STRICTLY after
today (appointments dated today are excluded), and the count with the video
mode. -/
theorem stats_spec (apts : List Apt) (today : CalDate) :
    (stats apts today).today = apts.countP (fun apt => decide (apt.date = today))
    ∧ (stats apts today).confirmed = apts.countP (fun apt => decide (apt.status = "Confirmed"))
    ∧ (stats apts today).upcoming = apts.countP (fun apt => decide (dateLtP today apt.date))
    ∧ (stats apts today).virtual = apts.countP (fun apt => decide (apt.mode = "Video Call")) := by
  unfold stats
  refine ⟨?_, ?_, ?_, ?_⟩
  all_goals rw [List.countP_eq_length_filter]
  · exact congrArg List.length
      (List.filter_congr (fun x _ => by by_cases hx : x.date = today <;> simp [hx]))
  · exact congrArg List.length
      (List.filter_congr (fun x _ => by by_cases hx : x.status = "Confirmed" <;> simp [hx]))
  · exact congrArg List.length
      (List.filter_congr (fun x _ => by
        rw [decide_eq_decide]
        exact compareDates_pos_iff))
  · exact congrArg List.length
      (List.filter_congr (fun x _ => by by_cases hx : x.mode = "Video Call" <;> simp [hx]))

/-- C4: when the remote status update fails and the failure-path refetch
succeeds, the component's collection afterwards is exactly the transformed
refetched authoritative collection (the optimistic change is discarded
wholesale), and the failure is surfaced as the alert notification. -/
theorem handleStatusUpdate_failure_resync (apts : List Apt)
    (appointmentId newStatus e : String) (data : List RawApt) :
    (handleStatusUpdate apts appointmentId newStatus (.error e) (.ok data)).appointments
        = data.map transformAppointment
    ∧ (handleStatusUpdate apts appointmentId newStatus (.error e) (.ok data)).notification
        = some "Failed to update appointment status"
    ∧ (handleStatusUpdate apts appointmentId newStatus (.error e) (.ok data)).result
        = .ok () :=
  ⟨rfl, rfl, rfl⟩

/-- C5: after an `updateStatus` whose remote call succeeds, the collection
has the same length, every position whose record bore the targeted id holds
that record with only its status replaced by the new status (all other fields
intact), and every other position holds its old record unchanged. -/
theorem handleStatusUpdate_success_frame (apts : List Apt)
    (appointmentId newStatus : String) (refetch : Except String (List RawApt))
    (i : Nat) (a : Apt) (ha : apts[i]? = some a) :
    (handleStatusUpdate apts appointmentId newStatus (.ok ()) refetch).appointments.length
        = apts.length
    ∧ (a.id = appointmentId →
        (handleStatusUpdate apts appointmentId newStatus (.ok ()) refetch).appointments[i]?
          = some { a with status := newStatus })
    ∧ (a.id ≠ appointmentId →
        (handleStatusUpdate apts appointmentId newStatus (.ok ()) refetch).appointments[i]?
          = some a) := by
  have happts : (handleStatusUpdate apts appointmentId newStatus (.ok ()) refetch).appointments
      = apts.map (fun apt => if apt.id = appointmentId then { apt with status := newStatus } else apt) := rfl
  rw [happts]
  refine ⟨List.length_map _ _, ?_, ?_⟩
  · intro hid
    rw [List.getElem?_map, ha, Option.map_some', if_pos hid]
  · intro hid
    rw [List.getElem?_map, ha, Option.map_some', if_neg hid]

/-- Witness for C5: updating the only appointment's status to `Cancelled`
with a succeeding remote call leaves a one-element collection whose record is
the original with just the status changed. -/
theorem handleStatusUpdate_success_frame_app :
    (handleStatusUpdate [exApt] "apt1" "Cancelled" (.ok ()) (.ok [])).appointments.length = 1
    ∧ (handleStatusUpdate [exApt] "apt1" "Cancelled" (.ok ()) (.ok [])).appointments[0]?
        = some { exApt with status := "Cancelled" } := by
  have h := handleStatusUpdate_success_frame [exApt] "apt1" "Cancelled" (.ok []) 0 exApt (by decide)
  exact ⟨h.1, h.2.1 rfl⟩

/-- C10: when the remote update fails AND the failure-path refetch also
fails, the handler's promise rejects with the refetch error, the collection
keeps the optimistic (unconfirmed) statuses instead of being restored, and no
failure alert is shown. -/
theorem handleStatusUpdate_double_failure (apts : List Apt)
    (appointmentId newStatus e1 e2 : String) :
    (handleStatusUpdate apts appointmentId newStatus (.error e1) (.error e2)).result
        = .error e2
    ∧ (handleStatusUpdate apts appointmentId newStatus (.error e1) (.error e2)).appointments
        = apts.map (fun apt =>
            if apt.id = appointmentId then { apt with status := newStatus } else apt)
    ∧ (handleStatusUpdate apts appointmentId newStatus (.error e1) (.error e2)).notification
        = none :=
  ⟨rfl, rfl, rfl⟩

/-- C6: a status update whose id matches no record of the collection signals
the not-found error to the caller (the mock mutation throws) instead of
silently succeeding. -/
theorem updateAppointmentStatus_notFound (store : List StoreApt)
    (appointmentId newStatus : String) (habs : ∀ apt ∈ store, apt.id ≠ appointmentId) :
    updateAppointmentStatus store appointmentId newStatus
      = .error (.notFound appointmentId) := by
  unfold updateAppointmentStatus
  have hnone : store.find? (fun apt => apt.id == appointmentId) = none := by
    rw [List.find?_eq_none]
    intro x hx
    simp only [beq_iff_eq]
    exact habs x hx
  rw [hnone]

/-- Witness for C6: updating the unknown id `apt999` against the seed store
yields the not-found error. -/
theorem updateAppointmentStatus_notFound_app :
    updateAppointmentStatus APPOINTMENTS "apt999" "Confirmed"
      = .error (.notFound "apt999") :=
  updateAppointmentStatus_notFound APPOINTMENTS "apt999" "Confirmed" (by decide)

/-- C7 counterexample: the seed store itself (before any update) contains
appointments — `apt004`, `apt006`, `apt011` — whose status `Upcoming` is none
of the four claimed enum values. -/
theorem seed_status_enum_cex :
    ¬ (∀ apt ∈ APPOINTMENTS,
        apt.status ∈ (["Scheduled", "Confirmed", "Completed", "Cancelled"] : List String)) := by
  decide

theorem setStatusFirst_status_mem {vals : List String} :
    ∀ (store : List StoreApt) (i st : String),
      (∀ apt ∈ store, apt.status ∈ vals) → st ∈ vals →
      ∀ apt ∈ setStatusFirst store i st, apt.status ∈ vals := by
  intro store
  induction store with
  | nil =>
    intro i st _ _ apt hm
    simp [setStatusFirst] at hm
  | cons a rest ih =>
    intro i st hstore hst apt hm
    simp only [setStatusFirst] at hm
    by_cases hid : a.id = i
    · rw [if_pos hid] at hm
      rcases List.mem_cons.mp hm with rfl | hmem
      · exact hst
      · exact hstore apt (List.mem_cons_of_mem _ hmem)
    · rw [if_neg hid] at hm
      rcases List.mem_cons.mp hm with rfl | hmem
      · exact hstore apt (List.mem_cons_self _ _)
      · exact ih i st (fun x hx => hstore x (List.mem_cons_of_mem _ hx)) hst apt hmem

theorem applyUpdates_status_mem {vals : List String} :
    ∀ (updates : List (String × String)) (store : List StoreApt),
      (∀ apt ∈ store, apt.status ∈ vals) →
      (∀ u ∈ updates, u.2 ∈ vals) →
      ∀ apt ∈ applyUpdates store updates, apt.status ∈ vals := by
  intro updates
  induction updates with
  | nil =>
    intro store hs _ apt hm
    exact hs apt hm
  | cons u rest ih =>
    intro store hs hu apt hm
    obtain ⟨i, st⟩ := u
    have hst : st ∈ vals := hu (i, st) (List.mem_cons_self _ _)
    have hrest : ∀ v ∈ rest, v.2 ∈ vals := fun v hv => hu v (List.mem_cons_of_mem _ hv)
    simp only [applyUpdates] at hm
    cases hfind : updateAppointmentStatus store i st with
    | error e =>
      rw [hfind] at hm
      exact ih store hs hrest apt hm
    | ok p =>
      obtain ⟨upd, s⟩ := p
      rw [hfind] at hm
      have hs' : s = setStatusFirst store i st := by
        unfold updateAppointmentStatus at hfind
        cases hf2 : store.find? (fun apt => apt.id == i) with
        | none =>
          rw [hf2] at hfind
          cases hfind
        | some apt0 =>
          rw [hf2] at hfind
          injection hfind with hfind
          exact (congrArg Prod.snd hfind).symm
      subst hs'
      exact ih (setStatusFirst store i st)
        (setStatusFirst_status_mem store i st hs hst) hrest apt hm

/-- C7 (amended): the status universe of the mock is the FIVE values actually
in play — the four claimed enum values plus `Upcoming` (which the seed data
uses and the UI's `Set Upcoming` action writes).  Starting from the seed
store, any sequence of status updates drawing its new statuses from that set
leaves every appointment's status in the set. -/
theorem status_universe_invariant (updates : List (String × String))
    (hupd : ∀ u ∈ updates,
      u.2 ∈ (["Scheduled", "Confirmed", "Completed", "Cancelled", "Upcoming"] : List String)) :
    ∀ apt ∈ applyUpdates APPOINTMENTS updates,
      apt.status ∈ (["Scheduled", "Confirmed", "Completed", "Cancelled", "Upcoming"] : List String) :=
  applyUpdates_status_mem updates APPOINTMENTS (by decide) hupd

/-- Witness for C7: after cancelling `apt001`, the untouched record `apt004`
is still in the store and its status `Upcoming` lies in the five-value
universe. -/
theorem status_universe_invariant_app :
    "Upcoming" ∈ (["Scheduled", "Confirmed", "Completed", "Cancelled", "Upcoming"] : List String) :=
  status_universe_invariant [("apt001", "Cancelled")] (by decide)
    ⟨"apt004", "Lisa Anderson", ⟨2025, 12, 20⟩, "11:00", 60, "Dr. Emily White", "Upcoming", "Video"⟩
    (by decide)

/-- Whether a UI event is a calendar date selection. -/
def isDateSelect : UIEvent → Bool
  | .dateSelect _ => true
  | _ => false

theorem applyEvents_preserves_none :
    ∀ (post : List UIEvent) (s0 : FilterState),
      (∀ e ∈ post, isDateSelect e = false) → s0.selectedDate = none →
      (applyEvents s0 post).selectedDate = none := by
  intro post
  induction post with
  | nil =>
    intro s0 _ h0
    exact h0
  | cons e rest ih =>
    intro s0 hne h0
    have hstep : (stepFilter s0 e).selectedDate = none := by
      cases e with
      | tabChange t => rfl
      | dateSelect dd =>
        have := hne _ (List.mem_cons_self _ _)
        simp [isDateSelect] at this
      | setSearch q => exact h0
      | setStatusFilter v => exact h0
      | setDoctorFilter v => exact h0
    exact ih (stepFilter s0 e) (fun x hx => hne x (List.mem_cons_of_mem _ hx)) hstep

/-- C9: immediately after every `handleTabChange` the selected date is `null`,
and it stays `null` through any further events until a date is selected again
— so a tab predicate and a `selectedDate` predicate can only be simultaneously
active when the date was picked after the most recent tab change. -/
theorem handleTabChange_clears_selectedDate (s : FilterState) (tab : String)
    (post : List UIEvent) (hpost : ∀ e ∈ post, isDateSelect e = false) :
    (handleTabChange s tab).selectedDate = none
    ∧ (applyEvents (handleTabChange s tab) post).selectedDate = none :=
  ⟨rfl, applyEvents_preserves_none post (handleTabChange s tab) hpost rfl⟩

/-- Witness for C9: switching to the `Today` tab while a date is selected
clears the selection, and a subsequent search keystroke leaves it cleared. -/
theorem handleTabChange_clears_selectedDate_app :
    (handleTabChange ⟨"Upcoming", some ⟨2025, 12, 15⟩, "", "All Status", "All Doctors"⟩
        "Today").selectedDate = none
    ∧ (applyEvents
        (handleTabChange ⟨"Upcoming", some ⟨2025, 12, 15⟩, "", "All Status", "All Doctors"⟩
          "Today")
        [UIEvent.setSearch "sar"]).selectedDate = none :=
  handleTabChange_clears_selectedDate
    ⟨"Upcoming", some ⟨2025, 12, 15⟩, "", "All Status", "All Doctors"⟩ "Today"
    [UIEvent.setSearch "sar"] (by decide)

theorem foldl_append_singleton {β : Type} (f : Nat → β) :
    ∀ (l : List Nat) (acc : List β),
      l.foldl (fun days k => days ++ [f k]) acc = acc ++ l.map f := by
  intro l
  induction l with
  | nil =>
    intro acc
    simp
  | cons x xs ih =>
    intro acc
    simp only [List.foldl_cons, List.map_cons]
    rw [ih]
    simp

theorem foldl_blank (n : Nat) :
    (List.range n).foldl
        (fun (days : List (Option CalendarEntry)) _ => days ++ [none]) []
      = List.replicate n none := by
  have h : ∀ (l : List Nat) (acc : List (Option CalendarEntry)),
      l.foldl (fun days _ => days ++ [none]) acc
        = acc ++ List.replicate l.length none := by
    intro l
    induction l with
    | nil =>
      intro acc
      simp
    | cons x xs ih =>
      intro acc
      simp only [List.foldl_cons, List.length_cons]
      rw [ih]
      simp [List.replicate_succ]
  rw [h]
  simp

/-- The two loops of `calendarDays` produce the leading blanks followed by
the day entries of the month. -/
theorem calendarDays_eq (apts : List Apt) (cm : JsDate) :
    calendarDays apts cm
      = List.replicate (dayOfWeek cm.year (cm.month + 1) 1) none
        ++ (List.range (daysInMonth0 cm.year cm.month)).map (fun k =>
            some
              { day := k + 1
                dateStr := ⟨cm.year, cm.month + 1, k + 1⟩
                hasAppointments :=
                  apts.any (fun apt => apt.date == (⟨cm.year, cm.month + 1, k + 1⟩ : CalDate))
                appointments :=
                  apts.filter (fun apt => apt.date == (⟨cm.year, cm.month + 1, k + 1⟩ : CalDate)) }) := by
  unfold calendarDays
  rw [foldl_blank]
  exact foldl_append_singleton _ _ _

theorem countP_isSome_replicate (n : Nat) :
    (List.replicate n (none : Option CalendarEntry)).countP Option.isSome = 0 := by
  induction n with
  | zero => rfl
  | succ m ih =>
    rw [List.replicate_succ, List.countP_cons]
    simp [ih]

theorem countP_isSome_map_some (l : List Nat) (f : Nat → CalendarEntry) :
    (l.map (fun k => some (f k))).countP Option.isSome = l.length := by
  induction l with
  | nil => rfl
  | cons x xs ih =>
    rw [List.map_cons, List.countP_cons]
    simp [ih]

theorem changeMonth_dec_rollover (y d : Nat) (hd31 : d ≤ 31) :
    changeMonth ⟨y, 11, d⟩ 1 = ⟨y + 1, 0, d⟩ := by
  unfold changeMonth jsSetMonth
  dsimp only
  have h1 : jsYM y (((11 : Nat) : Int) + 1) = 12 * y + 12 := by
    unfold jsYM
    omega
  rw [h1]
  rw [show (12 * y + 12) / 12 = y + 1 from by omega,
      show (12 * y + 12) % 12 = 0 from by omega]
  have hdim : daysInMonth0 (y + 1) 0 = 31 := by simp [daysInMonth0]
  rw [hdim, if_pos hd31]

theorem changeMonth_jan_rollover (y d : Nat) (hd31 : d ≤ 31) :
    changeMonth ⟨y + 1, 0, d⟩ (-1) = ⟨y, 11, d⟩ := by
  unfold changeMonth jsSetMonth
  dsimp only
  have h1 : jsYM (y + 1) (((0 : Nat) : Int) + (-1)) = 12 * y + 11 := by
    unfold jsYM
    omega
  rw [h1]
  rw [show (12 * y + 11) / 12 = y from by omega,
      show (12 * y + 11) % 12 = 11 from by omega]
  have hdim : daysInMonth0 y 11 = 31 := by simp [daysInMonth0]
  rw [hdim, if_pos hd31]

/-- C8: for EVERY visible month, the calendar index is exactly (weekday of
the 1st, 0 = Sunday) leading blank slots followed by one entry per day
`1..daysInMonth`: every index below the blank count holds a blank, and for
every `k < daysInMonth` the slot after the blanks holds the entry of day
`k + 1` with its date, a has-appointments flag true exactly when some
appointment falls on that date, and exactly the appointments of that date;
leap-year February yields 29 day entries (non-leap 28); a month starting on
Sunday (June 2025) has zero leading blanks; and month navigation by ±1 rolls
the year over past December/January. -/
theorem calendarDays_spec (apts : List Apt) (cm : JsDate) :
    (calendarDays apts cm).length
        = dayOfWeek cm.year (cm.month + 1) 1 + daysInMonth0 cm.year cm.month
    ∧ (∀ j, j < dayOfWeek cm.year (cm.month + 1) 1 →
        (calendarDays apts cm)[j]? = some none)
    ∧ (∀ k, k < daysInMonth0 cm.year cm.month →
        (calendarDays apts cm)[dayOfWeek cm.year (cm.month + 1) 1 + k]?
          = some (some
              { day := k + 1
                dateStr := ⟨cm.year, cm.month + 1, k + 1⟩
                hasAppointments :=
                  apts.any (fun apt => apt.date == (⟨cm.year, cm.month + 1, k + 1⟩ : CalDate))
                appointments :=
                  apts.filter (fun apt => apt.date == (⟨cm.year, cm.month + 1, k + 1⟩ : CalDate)) }))
    ∧ (∀ k : Nat,
        apts.any (fun apt => apt.date == (⟨cm.year, cm.month + 1, k + 1⟩ : CalDate)) = true
        ↔ ∃ apt ∈ apts, apt.date = ⟨cm.year, cm.month + 1, k + 1⟩)
    ∧ (∀ (k : Nat) (x : Apt),
        x ∈ apts.filter (fun apt => apt.date == (⟨cm.year, cm.month + 1, k + 1⟩ : CalDate))
        ↔ x ∈ apts ∧ x.date = ⟨cm.year, cm.month + 1, k + 1⟩)
    ∧ (calendarDays apts ⟨2024, 1, 1⟩).countP Option.isSome = 29
    ∧ (calendarDays apts ⟨2025, 1, 1⟩).countP Option.isSome = 28
    ∧ dayOfWeek 2025 6 1 = 0
    ∧ (∀ y d, d ≤ 31 → changeMonth ⟨y, 11, d⟩ 1 = ⟨y + 1, 0, d⟩)
    ∧ (∀ y d, d ≤ 31 → changeMonth ⟨y + 1, 0, d⟩ (-1) = ⟨y, 11, d⟩) := by
  have hceq := calendarDays_eq apts cm
  refine ⟨?_, ?_, ?_, ?_, ?_, ?_, ?_, by decide,
    fun y d hd31 => changeMonth_dec_rollover y d hd31,
    fun y d hd31 => changeMonth_jan_rollover y d hd31⟩
  · rw [hceq]
    simp [List.length_append, List.length_replicate, List.length_map, List.length_range]
  · intro j hj
    rw [hceq, List.getElem?_append, List.length_replicate, if_pos hj,
      List.getElem?_replicate, if_pos hj]
  · intro k hk
    rw [hceq, List.getElem?_append, List.length_replicate, if_neg (by omega),
      Nat.add_sub_cancel_left, List.getElem?_map, List.getElem?_range hk,
      Option.map_some']
  · intro k
    rw [List.any_eq_true]
    constructor
    · rintro ⟨x, hx, hpx⟩
      exact ⟨x, hx, eq_of_beq hpx⟩
    · rintro ⟨x, hx, hpx⟩
      exact ⟨x, hx, by simp [hpx]⟩
  · intro k x
    rw [List.mem_filter]
    constructor
    · rintro ⟨hx, hpx⟩
      exact ⟨hx, eq_of_beq hpx⟩
    · rintro ⟨hx, hpx⟩
      exact ⟨hx, by simp [hpx]⟩
  · rw [calendarDays_eq apts ⟨2024, 1, 1⟩, List.countP_append,
      countP_isSome_replicate, countP_isSome_map_some]
    simp [List.length_range]
    decide
  · rw [calendarDays_eq apts ⟨2025, 1, 1⟩, List.countP_append,
      countP_isSome_replicate, countP_isSome_map_some]
    simp [List.length_range]
    decide

/-- Witness for C8 at December 2025 (which starts on a Monday, so one leading
blank): the calendar has 32 slots, the first is blank, and navigating forward
from December 2025 lands in January 2026. -/
theorem calendarDays_spec_app :
    (calendarDays [] ⟨2025, 11, 1⟩).length = 32
    ∧ (calendarDays [] ⟨2025, 11, 1⟩)[0]? = some none
    ∧ changeMonth ⟨2025, 11, 15⟩ 1 = ⟨2026, 0, 15⟩ := by
  have h := calendarDays_spec [] ⟨2025, 11, 1⟩
  exact ⟨h.1.trans (by decide), h.2.1 0 (by decide),
    h.2.2.2.2.2.2.2.2.1 2025 15 (by decide)⟩
